import Mathlib

/-!
Verification of the booking-availability logic of
`Project_Files/Backend/controllers/doctorController.js`
(`exports.checkBookingAvailability`, lines 109-154).

The handler is embedded as a pure function of the database snapshot it
reads: the doctor record looked up by `doctorId` (an `Option Doctor`),
and the full list of appointment documents (the `Appointment.find` query
is embedded as a `List.filter` over that list).

The source relies on two external systems whose relevant semantics are
modelled here:

* moment.js (`moment(s, "HH:mm")`, `moment(s, ["HH:mm", "hh:mm A"])`,
  `isBefore`, `isAfter`, `clone().subtract/add(minutes)`,
  `format("HH:mm")`, `format("hh:mm A")`).  Parsing is moment's default
  non-strict mode: each format token matches unanchored in the input
  that remains (`HH`/`hh`/`mm` take the first one- or two-digit run,
  skipping unmatched characters; literal separators are consumed where
  first found and skipped silently otherwise), unmatched input is
  counted as left-over characters, a missing parse token (the meridiem
  `A`, or `mm`) counts as an unused token with the field at its
  default, and out-of-range fields make the moment invalid (hour up to
  24 is accepted when the minutes are zero: `"24:00"` is next-day
  midnight; no digit anywhere means nothing parsed and the moment is
  invalid).  With an array of
  formats, moment picks the valid parse with the lowest penalty
  `charsLeftOver + 10 * unusedTokens`, preferring the earlier format on
  a tie.  An invalid moment compares `false` under `isBefore`/`isAfter`
  and formats as `"Invalid date"`.  Times parse onto a single reference
  date, so comparisons and arithmetic act on a minute-of-day value;
  `subtract`/`add` may cross midnight, and `format "HH:mm"` then shows
  the wrapped time-of-day (modelled with `% 1440`).

* MongoDB `$gte`/`$lte` on string fields: plain lexicographic
  comparison of the strings by code unit (`lexLe` below).
-/

namespace DocSpot

/-- A doctor record; only the working-hours fields are read by the
availability check (`doctor.fromTime`, `doctor.toTime`, source lines
115-116). -/
structure Doctor where
  fromTime : String
  toTime : String
deriving DecidableEq

/-- An appointment document as queried at source lines 139-144:
`doctorId`, `date` and `time` are stored as strings (`time` in `"HH:mm"`
form when written by the app), `status` is one of `"pending"`,
`"approved"`, `"rejected"`. -/
structure Appointment where
  doctorId : String
  date : String
  time : String
  status : String
deriving DecidableEq

/-- Outcome of the `checkBookingAvailability` handler: the 404
"Doctor not found" error (line 112), the 400 working-hours error with
its message (lines 131-136), the 400 "Appointment not available" error
(line 147), or the success response (lines 150-153). -/
inductive CheckResult where
  | doctorNotFound
  | outOfWorkingHours (msg : String)
  | slotConflict
  | available
deriving DecidableEq

/-- Numeric value of a decimal digit character. -/
def digitVal (c : Char) : Nat := c.toNat - 48

/-- The decimal digit character for `d < 10`. -/
def digitChar (d : Nat) : Char := Char.ofNat (48 + d)

/-- One- or two-digit match anchored at the start of the input; used by
the `"hh:mm A"` model below, which covers the canonical 12-hour shape
(moment's matching is laxer - see `matchNum` for the unanchored model
used for the `"HH:mm"` format, which every claim about stored doctor
times depends on). -/
def take2Digits : List Char → Option (Nat × List Char)
  | [] => none
  | [c1] => if c1.isDigit then some (digitVal c1, []) else none
  | c1 :: c2 :: rest =>
    if c1.isDigit then
      if c2.isDigit then some (10 * digitVal c1 + digitVal c2, rest)
      else some (digitVal c1, c2 :: rest)
    else none

/-- Result of parsing one string against one moment format: the
minute-of-day value, the count of left-over input characters, and the
count of format tokens left unused (moment's scoring data). -/
structure MomentParse where
  value : Nat
  leftover : Nat
  unused : Nat
deriving DecidableEq

/-- moment's penalty for a candidate format:
`charsLeftOver + 10 * unusedTokens`. -/
def momentScore (p : MomentParse) : Nat := p.leftover + 10 * p.unused

/-- Modelled from moment's unanchored token match for `HH`/`mm`
(`string.match(/\d\d?/)`): scan forward to the first digit anywhere in
the remaining input (skipped characters are dropped from the remaining
input and counted in `charsLeftOver`), then take one or two digits
greedily; returns the value, the number of matched characters (1 or 2)
and the input after the match, or `none` when the input has no digit
(token unused). -/
def matchNum : List Char → Option (Nat × Nat × List Char)
  | [] => none
  | c :: cs =>
    if c.isDigit then
      match cs with
      | [] => some (digitVal c, 1, [])
      | c2 :: cs2 =>
        if c2.isDigit then some (10 * digitVal c + digitVal c2, 2, cs2)
        else some (digitVal c, 1, c2 :: cs2)
    else matchNum cs

/-- Modelled from moment's unanchored match of the literal `:` format
token: find the first `:` anywhere in the remaining input and consume
through it, or `none` when there is no `:` (the literal is skipped
silently - it has no token function, so it is not counted as an unused
token). -/
def matchColon : List Char → Option (List Char)
  | [] => none
  | c :: cs => if c = ':' then some cs else matchColon cs

/-- Modelled from `moment(s, "HH:mm")` in non-strict mode.  Each token
matches unanchored in the remaining input: `HH` takes the first one- or
two-digit run anywhere (so `"a12:30"` parses as 12:30), the literal `:`
is consumed where first found and skipped silently otherwise, and `mm`
takes the next digit run; an unmatched `mm` leaves the minute at its
default 0 and counts as an unused token.  The moment is invalid
(`none`) when no digit exists at all (the `empty` parsing flag) or on
overflow: hour `> 24`, hour `= 24` with nonzero minutes (so `"24:00"`
is valid, next-day midnight, value 1440), or minutes `> 59`.
`charsLeftOver` is the input length minus the matched characters. -/
def parse24 (s : String) : Option MomentParse :=
  match matchNum s.data with
  | none => none
  | some (h, hlen, r1) =>
    match matchColon r1 with
    | some r2 =>
      match matchNum r2 with
      | some (m, mlen, _r3) =>
        if h ≤ 23 ∧ m ≤ 59 ∨ h = 24 ∧ m = 0 then
          some ⟨60 * h + m, s.data.length - (hlen + 1 + mlen), 0⟩
        else none
      | none =>
        if h ≤ 24 then some ⟨60 * h, s.data.length - (hlen + 1), 1⟩ else none
    | none =>
      match matchNum r1 with
      | some (m, mlen, _r3) =>
        if h ≤ 23 ∧ m ≤ 59 ∨ h = 24 ∧ m = 0 then
          some ⟨60 * h + m, s.data.length - (hlen + mlen), 0⟩
        else none
      | none =>
        if h ≤ 24 then some ⟨60 * h, s.data.length - hlen, 1⟩ else none

/-- Modelled from moment's `A` token: a space then `AM`/`PM`
(case-insensitive); returns whether it is PM and the remaining input. -/
def meridiem : List Char → Option (Bool × List Char)
  | ' ' :: c1 :: c2 :: rest =>
    if (c1 = 'A' ∨ c1 = 'a') ∧ (c2 = 'M' ∨ c2 = 'm') then some (false, rest)
    else if (c1 = 'P' ∨ c1 = 'p') ∧ (c2 = 'M' ∨ c2 = 'm') then some (true, rest)
    else none
  | _ => none

/-- Modelled from `moment(s, "hh:mm A")` in non-strict mode, restricted
to the canonical shape of the accepted 12-hour form (digits anchored at
the start, a single space before a two-letter meridiem; moment's actual
matching is unanchored with meridiem regex `[ap]\.?m?\.?`, a laxity
immaterial here: the claims instantiate this format only at canonical
`"hh:mm A"` strings, where the two agree).  With a meridiem present the
hour must be `1..12` and is converted to 24-hour form (`12 AM → 0`,
`12 PM → 12`); with the meridiem absent the token counts as unused and
the parsed hour is kept as-is (valid when `≤ 23`). -/
def parse12 (s : String) : Option MomentParse :=
  match take2Digits s.data with
  | none => none
  | some (h, r1) =>
    match r1 with
    | ':' :: r2 =>
      match take2Digits r2 with
      | none => none
      | some (m, r3) =>
        match meridiem r3 with
        | some (isPM, r4) =>
          if 1 ≤ h ∧ h ≤ 12 ∧ m ≤ 59 then
            some ⟨60 * (if isPM then (if h = 12 then 12 else h + 12)
                        else (if h = 12 then 0 else h)) + m, r4.length, 0⟩
          else none
        | none =>
          if h ≤ 23 ∧ m ≤ 59 then some ⟨60 * h + m, r3.length, 1⟩ else none
    | _ => none

/-- Modelled from `moment(req.body.time, ["HH:mm", "hh:mm A"])` (source
line 119): both formats are tried, the valid parse with the lower
penalty wins, ties go to the earlier format in the array. -/
def parseMulti (s : String) : Option Nat :=
  match parse24 s, parse12 s with
  | none, none => none
  | some p, none => some p.value
  | none, some q => some q.value
  | some p, some q =>
    if momentScore p ≤ momentScore q then some p.value else some q.value

/-- The minute-of-day value of `moment(s, "HH:mm")` (source lines
115-116), `none` when the moment is invalid. -/
def parse24val (s : String) : Option Nat := (parse24 s).map (fun p => p.value)

/-- The five characters of `format("HH:mm")` for a minute-of-day value. -/
def fmtHHmmList (n : Nat) : List Char :=
  [digitChar (n / 60 / 10), digitChar (n / 60 % 10), ':',
   digitChar (n % 60 / 10), digitChar (n % 60 % 10)]

/-- moment's `format("HH:mm")` of a valid time (zero-padded, 24-hour). -/
def fmtHHmm (n : Nat) : String := ⟨fmtHHmmList n⟩

/-- The characters of `format("hh:mm A")` for a minute-of-day value. -/
def fmt12List (n : Nat) : List Char :=
  [digitChar ((if n / 60 % 12 = 0 then 12 else n / 60 % 12) / 10),
   digitChar ((if n / 60 % 12 = 0 then 12 else n / 60 % 12) % 10), ':',
   digitChar (n % 60 / 10), digitChar (n % 60 % 10), ' ',
   if n / 60 < 12 then 'A' else 'P', 'M']

/-- moment's `format("hh:mm A")` of a valid time (12-hour display form,
source lines 124-125). -/
def fmt12 (n : Nat) : String := ⟨fmt12List n⟩

/-- `format("hh:mm A")` including the invalid case: an invalid moment
formats as `"Invalid date"`; a valid moment displays the time-of-day of
its instant (total minutes mod one day - relevant only for `"24:00"`,
whose instant is next-day midnight and displays as `12:00 AM`). -/
def momFmt12 : Option Nat → String
  | none => "Invalid date"
  | some n => fmt12 (n % 1440)

/-- Modelled from `requestedTime.clone().subtract(30, "minutes")` /
`.add(15, "minutes")` followed by `.format("HH:mm")` (source lines
121-122, 142): shifting may cross midnight, and `"HH:mm"` shows the
time-of-day of the shifted instant; an invalid moment stays invalid and
formats as `"Invalid date"`. -/
def momShiftFmt (rq : Option Nat) (delta : Int) : String :=
  match rq with
  | none => "Invalid date"
  | some r => fmtHHmm ((((r : Int) + delta) % 1440).toNat)

/-- moment's `isBefore`: strict comparison, `false` when either side is
invalid. -/
def momIsBefore : Option Nat → Option Nat → Bool
  | some a, some b => decide (a < b)
  | _, _ => false

/-- moment's `isAfter`: strict comparison, `false` when either side is
invalid. -/
def momIsAfter : Option Nat → Option Nat → Bool
  | some a, some b => decide (b < a)
  | _, _ => false

/-- Lexicographic (code-unit) comparison of character lists: the model
of MongoDB's `$gte`/`$lte` ordering on string fields. -/
def lexLe : List Char → List Char → Bool
  | [], _ => true
  | _ :: _, [] => false
  | a :: as, b :: bs =>
    if a.toNat < b.toNat then true
    else if b.toNat < a.toNat then false
    else lexLe as bs

/-- MongoDB string comparison `s ≤ t` used by the `$gte`/`$lte` bounds
of the appointment query (source line 142). -/
def mongoStrLe (s t : String) : Bool := lexLe s.data t.data

/-- The `Appointment.find` query document of source lines 139-144, as a
predicate on one appointment document: same `doctorId`, same `date`
(exact string equality), `time` within `[wStart, wEnd]` in MongoDB
string order, and `status ≠ "rejected"`. -/
def matchesQuery (doctorId date wStart wEnd : String) (a : Appointment) : Bool :=
  a.doctorId == doctorId && a.date == date &&
  mongoStrLe wStart a.time && mongoStrLe a.time wEnd &&
  !(a.status == "rejected")

/-- The working-hours error message of source line 133. -/
def workingHoursMsg (doctorFromTime doctorToTime : Option Nat) : String :=
  "Please select a time within doctor's working hours " ++
    momFmt12 doctorFromTime ++ " to " ++ momFmt12 doctorToTime

/-- The availability logic of source lines 114-153, after the doctor
lookup: parse the doctor's hours with `"HH:mm"` and the requested time
with `["HH:mm", "hh:mm A"]`, reject when the requested time is strictly
before `fromTime` or strictly after `toTime`, otherwise query for a
non-rejected appointment of the same doctor and date whose time string
lies in `[requested − 30min, requested + 15min]`, and reject on any
match; otherwise the slot is available. -/
def availabilityCheck (doc : Doctor) (doctorId date time : String)
    (appts : List Appointment) : CheckResult :=
  if momIsBefore (parseMulti time) (parse24val doc.fromTime) ||
     momIsAfter (parseMulti time) (parse24val doc.toTime) then
    CheckResult.outOfWorkingHours
      (workingHoursMsg (parse24val doc.fromTime) (parse24val doc.toTime))
  else if 0 < (appts.filter (matchesQuery doctorId date
      (momShiftFmt (parseMulti time) (-30))
      (momShiftFmt (parseMulti time) 15))).length then
    CheckResult.slotConflict
  else
    CheckResult.available

/-- The whole `checkBookingAvailability` handler (source lines 109-154)
as a function of the database snapshot: the doctor lookup result and
the appointment collection. -/
def checkBookingAvailability (doctor : Option Doctor)
    (doctorId date time : String) (appts : List Appointment) : CheckResult :=
  match doctor with
  | none => CheckResult.doctorNotFound
  | some doc => availabilityCheck doc doctorId date time appts

/-! ### Digit and character lemmas -/

theorem digitChar_toNat (d : Nat) (h : d < 10) : (digitChar d).toNat = 48 + d := by
  revert h
  revert d
  decide

theorem isDigit_digitChar (d : Nat) (h : d < 10) : (digitChar d).isDigit = true := by
  revert h
  revert d
  decide

theorem digitVal_digitChar (d : Nat) (h : d < 10) : digitVal (digitChar d) = d := by
  revert h
  revert d
  decide

/-! ### Lexicographic comparison lemmas -/

theorem lexLe_refl (l : List Char) : lexLe l l = true := by
  induction l with
  | nil => rfl
  | cons a as ih => simp [lexLe, ih]

theorem lexLe_nil (l : List Char) : lexLe [] l = true := rfl

theorem lexLe_cons (a b : Char) (as bs : List Char) :
    lexLe (a :: as) (b :: bs) = true ↔
      a.toNat < b.toNat ∨ (a.toNat = b.toNat ∧ lexLe as bs = true) := by
  simp only [lexLe]
  split_ifs with h1 h2
  · simp [h1]
  · simp only [false_iff]
    rintro (h | ⟨h, _⟩) <;> omega
  · have heq : a.toNat = b.toNat := by omega
    constructor
    · intro h
      exact Or.inr ⟨heq, h⟩
    · rintro (h | ⟨_, h⟩)
      · omega
      · exact h

theorem lexLe_trans (x : List Char) : ∀ y z : List Char,
    lexLe x y = true → lexLe y z = true → lexLe x z = true := by
  induction x with
  | nil => intro y z _ _; rfl
  | cons a as ih =>
    intro y z hxy hyz
    cases y with
    | nil => simp [lexLe] at hxy
    | cons b bs =>
      cases z with
      | nil => simp [lexLe] at hyz
      | cons c cs =>
        rw [lexLe_cons] at hxy hyz ⊢
        rcases hxy with h | ⟨h, hx⟩ <;> rcases hyz with g | ⟨g, hy⟩
        · exact Or.inl (by omega)
        · exact Or.inl (by omega)
        · exact Or.inl (by omega)
        · exact Or.inr ⟨by omega, ih bs cs hx hy⟩

/-- Comparing two `"HH:mm"`-formatted minute-of-day values as MongoDB
strings agrees with comparing the values numerically. -/
theorem lexLe_fmt_iff (a b : Nat) (ha : a < 1440) (hb : b < 1440) :
    lexLe (fmtHHmmList a) (fmtHHmmList b) = true ↔ a ≤ b := by
  have ha1 : a / 60 / 10 < 10 := by omega
  have ha2 : a / 60 % 10 < 10 := by omega
  have ha3 : a % 60 / 10 < 10 := by omega
  have ha4 : a % 60 % 10 < 10 := by omega
  have hb1 : b / 60 / 10 < 10 := by omega
  have hb2 : b / 60 % 10 < 10 := by omega
  have hb3 : b % 60 / 10 < 10 := by omega
  have hb4 : b % 60 % 10 < 10 := by omega
  have hcolon : (Char.toNat ':') = 58 := rfl
  simp only [fmtHHmmList, lexLe_cons, lexLe_nil, hcolon,
    digitChar_toNat _ ha1, digitChar_toNat _ ha2,
    digitChar_toNat _ ha3, digitChar_toNat _ ha4,
    digitChar_toNat _ hb1, digitChar_toNat _ hb2,
    digitChar_toNat _ hb3, digitChar_toNat _ hb4, and_true]
  have h58 : ((58 : Nat) < 58) = False := by simp
  simp only [h58, false_or, true_and]
  omega

theorem mongoStrLe_fmt_iff (a b : Nat) (ha : a < 1440) (hb : b < 1440) :
    mongoStrLe (fmtHHmm a) (fmtHHmm b) = true ↔ a ≤ b :=
  lexLe_fmt_iff a b ha hb

/-! ### Parsing and formatting round-trip lemmas -/


theorem fmtHHmm_data (n : Nat) : (fmtHHmm n).data = fmtHHmmList n := rfl

theorem matchNum_digits (a b : Nat) (rest : List Char) (ha : a < 10) (hb : b < 10) :
    matchNum (digitChar a :: digitChar b :: rest) = some (10 * a + b, 2, rest) := by
  simp [matchNum, isDigit_digitChar _ ha, isDigit_digitChar _ hb,
    digitVal_digitChar _ ha, digitVal_digitChar _ hb]

theorem matchColon_cons (cs : List Char) : matchColon (':' :: cs) = some cs := by
  simp [matchColon]

theorem parse24_list (h m : Nat) (rest : List Char) (hh : h ≤ 23) (hm : m ≤ 59) :
    parse24 ⟨digitChar (h / 10) :: digitChar (h % 10) :: ':' ::
             digitChar (m / 10) :: digitChar (m % 10) :: rest⟩ =
      some ⟨60 * h + m, rest.length, 0⟩ := by
  have h1 : h / 10 < 10 := by omega
  have h2 : h % 10 < 10 := by omega
  have h3 : m / 10 < 10 := by omega
  have h4 : m % 10 < 10 := by omega
  have e1 : 10 * (h / 10) + h % 10 = h := by omega
  have e2 : 10 * (m / 10) + m % 10 = m := by omega
  simp only [parse24, matchNum_digits _ _ _ h1 h2, matchColon_cons,
    matchNum_digits _ _ _ h3 h4, e1, e2]
  rw [if_pos (Or.inl ⟨hh, hm⟩)]
  simp

theorem parse12_list_none (h m : Nat) (hh : h ≤ 23) (hm : m ≤ 59) :
    parse12 ⟨[digitChar (h / 10), digitChar (h % 10), ':',
              digitChar (m / 10), digitChar (m % 10)]⟩ =
      some ⟨60 * h + m, 0, 1⟩ := by
  have h1 : h / 10 < 10 := by omega
  have h2 : h % 10 < 10 := by omega
  have h3 : m / 10 < 10 := by omega
  have h4 : m % 10 < 10 := by omega
  have e1 : 10 * (h / 10) + h % 10 = h := by omega
  have e2 : 10 * (m / 10) + m % 10 = m := by omega
  simp only [parse12, take2Digits, meridiem,
    isDigit_digitChar _ h1, isDigit_digitChar _ h2,
    isDigit_digitChar _ h3, isDigit_digitChar _ h4,
    digitVal_digitChar _ h1, digitVal_digitChar _ h2,
    digitVal_digitChar _ h3, digitVal_digitChar _ h4,
    if_true, e1, e2]
  rw [if_pos ⟨hh, hm⟩]
  simp

theorem parse12_list_mer (h m : Nat) (isPM : Bool) (hh1 : 1 ≤ h) (hh : h ≤ 12) (hm : m ≤ 59) :
    parse12 ⟨[digitChar (h / 10), digitChar (h % 10), ':',
              digitChar (m / 10), digitChar (m % 10), ' ',
              if isPM then 'P' else 'A', 'M']⟩ =
      some ⟨60 * (if isPM then (if h = 12 then 12 else h + 12)
                  else (if h = 12 then 0 else h)) + m, 0, 0⟩ := by
  have h1 : h / 10 < 10 := by omega
  have h2 : h % 10 < 10 := by omega
  have h3 : m / 10 < 10 := by omega
  have h4 : m % 10 < 10 := by omega
  have e1 : 10 * (h / 10) + h % 10 = h := by omega
  have e2 : 10 * (m / 10) + m % 10 = m := by omega
  cases isPM <;>
    simp only [parse12, take2Digits, meridiem, Bool.false_eq_true, if_false, if_true,
      isDigit_digitChar _ h1, isDigit_digitChar _ h2,
      isDigit_digitChar _ h3, isDigit_digitChar _ h4,
      digitVal_digitChar _ h1, digitVal_digitChar _ h2,
      digitVal_digitChar _ h3, digitVal_digitChar _ h4, e1, e2] <;>
    simp <;>
    exact ⟨hh1, hh, hm⟩


theorem fmtHHmm_shape (n : Nat) :
    fmtHHmm n = ⟨digitChar (n / 60 / 10) :: digitChar (n / 60 % 10) :: ':' ::
                 digitChar (n % 60 / 10) :: digitChar (n % 60 % 10) :: []⟩ := rfl

theorem parse24_fmtHHmm (n : Nat) (hn : n < 1440) :
    parse24 (fmtHHmm n) = some ⟨n, 0, 0⟩ := by
  rw [fmtHHmm_shape n, parse24_list (n / 60) (n % 60) [] (by omega) (by omega)]
  have e : 60 * (n / 60) + n % 60 = n := by omega
  simp [e]

theorem parse12_fmtHHmm (n : Nat) (hn : n < 1440) :
    parse12 (fmtHHmm n) = some ⟨n, 0, 1⟩ := by
  rw [fmtHHmm_shape n, parse12_list_none (n / 60) (n % 60) (by omega) (by omega)]
  have e : 60 * (n / 60) + n % 60 = n := by omega
  simp [e]

theorem parseMulti_fmtHHmm (n : Nat) (hn : n < 1440) :
    parseMulti (fmtHHmm n) = some n := by
  simp [parseMulti, parse24_fmtHHmm n hn, parse12_fmtHHmm n hn, momentScore]

theorem parse24val_fmtHHmm (n : Nat) (hn : n < 1440) :
    parse24val (fmtHHmm n) = some n := by
  simp [parse24val, parse24_fmtHHmm n hn]

theorem fmt12_mer_shape (n : Nat) :
    fmt12 n = ⟨[digitChar ((if n / 60 % 12 = 0 then 12 else n / 60 % 12) / 10),
                digitChar ((if n / 60 % 12 = 0 then 12 else n / 60 % 12) % 10), ':',
                digitChar (n % 60 / 10), digitChar (n % 60 % 10), ' ',
                if decide (12 ≤ n / 60) then 'P' else 'A', 'M']⟩ := by
  by_cases h : n / 60 < 12
  · have h2 : ¬ 12 ≤ n / 60 := by omega
    simp [fmt12, fmt12List, h, h2]
  · have h2 : 12 ≤ n / 60 := by omega
    simp [fmt12, fmt12List, h, h2]

theorem parse24_fmt12 (n : Nat) (hn : n < 1440) :
    parse24 (fmt12 n) =
      some ⟨60 * (if n / 60 % 12 = 0 then 12 else n / 60 % 12) + n % 60, 3, 0⟩ := by
  rw [fmt12_mer_shape n,
    parse24_list (if n / 60 % 12 = 0 then 12 else n / 60 % 12) (n % 60)
      [' ', if decide (12 ≤ n / 60) then 'P' else 'A', 'M']
      (by split_ifs <;> omega) (by omega)]
  simp

theorem parse12_fmt12 (n : Nat) (hn : n < 1440) :
    parse12 (fmt12 n) = some ⟨n, 0, 0⟩ := by
  rw [fmt12_mer_shape n,
    parse12_list_mer (if n / 60 % 12 = 0 then 12 else n / 60 % 12) (n % 60)
      (decide (12 ≤ n / 60))
      (by split_ifs <;> omega) (by split_ifs <;> omega) (by omega)]
  simp only [Option.some.injEq, MomentParse.mk.injEq, and_true]
  split_ifs <;> simp_all <;> omega

theorem parseMulti_fmt12 (n : Nat) (hn : n < 1440) :
    parseMulti (fmt12 n) = some n := by
  simp [parseMulti, parse24_fmt12 n hn, parse12_fmt12 n hn, momentScore]

/-! ### Window formatting and availability characterization -/

theorem momShiftFmt_eq (r : Nat) (delta : Int) (k : Nat)
    (h : ((r : Int) + delta) % 1440 = (k : Int)) :
    momShiftFmt (some r) delta = fmtHHmm k := by
  simp [momShiftFmt, h]

theorem mongoStrLe_fmt (a b : Nat) (ha : a < 1440) (hb : b < 1440) :
    mongoStrLe (fmtHHmm a) (fmtHHmm b) = decide (a ≤ b) := by
  by_cases h : a ≤ b
  · rw [(mongoStrLe_fmt_iff a b ha hb).2 h, decide_eq_true h]
  · have h2 : ¬ mongoStrLe (fmtHHmm a) (fmtHHmm b) = true := fun hc =>
      h ((mongoStrLe_fmt_iff a b ha hb).1 hc)
    rw [Bool.not_eq_true] at h2
    rw [h2, decide_eq_false h]

/-- Behaviour of the availability logic when the doctor's hours are
well-formed `"HH:mm"` strings and the requested time parses to `r`. -/
theorem availabilityCheck_valid (f t r : Nat) (hf : f < 1440) (ht : t < 1440)
    (hr : r < 1440) (s did date : String) (hs : parseMulti s = some r)
    (appts : List Appointment) :
    availabilityCheck ⟨fmtHHmm f, fmtHHmm t⟩ did date s appts =
      if r < f ∨ t < r then
        CheckResult.outOfWorkingHours
          ("Please select a time within doctor's working hours " ++
            fmt12 f ++ " to " ++ fmt12 t)
      else if 0 < (appts.filter (matchesQuery did date
          (momShiftFmt (some r) (-30)) (momShiftFmt (some r) 15))).length then
        CheckResult.slotConflict
      else CheckResult.available := by
  have hf1 : f % 1440 = f := Nat.mod_eq_of_lt hf
  have ht1 : t % 1440 = t := Nat.mod_eq_of_lt ht
  simp only [availabilityCheck, hs, parse24val_fmtHHmm f hf, parse24val_fmtHHmm t ht,
    momIsBefore, momIsAfter, workingHoursMsg, momFmt12, hf1, ht1, Bool.or_eq_true,
    decide_eq_true_eq]

/-! ### Claim theorems -/

/-- C1 (amended): for a requested time `r` within the doctor's working
hours whose conflict window and probe times stay within one calendar day
(`31 ≤ r` and `r + 16 < 1440` minutes), a non-rejected appointment for
the same doctor and date at exactly `r − 30` or `r + 15` minutes makes
the check return `SlotConflict`, while one at exactly `r − 31` or
`r + 16` minutes (alone) leaves the slot `Available`: the conflict
window `[r − 30, r + 15]` is inclusive at both ends.  The in-day
restriction is forced by the midnight-crossing behaviour shown in the
counterexample (and analysed in C9). -/
theorem claim_c1_amended (f t r : Nat) (did date st : String)
    (hfr : f ≤ r) (hrt : r ≤ t) (ht : t < 1440) (h31 : 31 ≤ r) (h16 : r + 16 < 1440)
    (hst : st ≠ "rejected") :
    (availabilityCheck ⟨fmtHHmm f, fmtHHmm t⟩ did date (fmtHHmm r)
        [⟨did, date, fmtHHmm (r - 30), st⟩] = CheckResult.slotConflict)
  ∧ (availabilityCheck ⟨fmtHHmm f, fmtHHmm t⟩ did date (fmtHHmm r)
        [⟨did, date, fmtHHmm (r + 15), st⟩] = CheckResult.slotConflict)
  ∧ (availabilityCheck ⟨fmtHHmm f, fmtHHmm t⟩ did date (fmtHHmm r)
        [⟨did, date, fmtHHmm (r - 31), st⟩] = CheckResult.available)
  ∧ (availabilityCheck ⟨fmtHHmm f, fmtHHmm t⟩ did date (fmtHHmm r)
        [⟨did, date, fmtHHmm (r + 16), st⟩] = CheckResult.available) := by
  have hr : r < 1440 := by omega
  have hwS : momShiftFmt (some r) (-30) = fmtHHmm (r - 30) :=
    momShiftFmt_eq r (-30) (r - 30) (by omega)
  have hwE : momShiftFmt (some r) 15 = fmtHHmm (r + 15) :=
    momShiftFmt_eq r 15 (r + 15) (by omega)
  have hst2 : (st == "rejected") = false := beq_eq_false_iff_ne.mpr hst
  have m1 : mongoStrLe (fmtHHmm (r - 30)) (fmtHHmm (r - 30)) = true := by
    rw [mongoStrLe_fmt _ _ (by omega) (by omega)]
    simp
  have m2 : mongoStrLe (fmtHHmm (r - 30)) (fmtHHmm (r + 15)) = true := by
    rw [mongoStrLe_fmt _ _ (by omega) (by omega)]
    simp
    omega
  have m5 : mongoStrLe (fmtHHmm (r + 15)) (fmtHHmm (r + 15)) = true := by
    rw [mongoStrLe_fmt _ _ (by omega) (by omega)]
    simp
  have m3 : mongoStrLe (fmtHHmm (r - 30)) (fmtHHmm (r - 31)) = false := by
    rw [mongoStrLe_fmt _ _ (by omega) (by omega)]
    simp
    omega
  have m6 : mongoStrLe (fmtHHmm (r - 30)) (fmtHHmm (r + 16)) = true := by
    rw [mongoStrLe_fmt _ _ (by omega) (by omega)]
    simp
    omega
  have m4 : mongoStrLe (fmtHHmm (r + 16)) (fmtHHmm (r + 15)) = false := by
    rw [mongoStrLe_fmt _ _ (by omega) (by omega)]
    simp
  refine ⟨?_, ?_, ?_, ?_⟩ <;>
    rw [availabilityCheck_valid f t r (by omega) ht hr _ did date
          (parseMulti_fmtHHmm r hr) _, if_neg (by omega), hwS, hwE] <;>
    simp [matchesQuery, m1, m2, m3, m4, m5, m6, hst2]

/-- C2: for every working window `[f, t]` with `f ≤ t`, a requested time
exactly equal to `f` or to `t` is not rejected by the working-hours
check, and the out-of-hours error is raised only when the requested time
is strictly before `f` or strictly after `t`. -/
theorem claim_c2 (f t : Nat) (did date : String) (appts : List Appointment)
    (hft : f ≤ t) (ht : t < 1440) :
    (∀ m, availabilityCheck ⟨fmtHHmm f, fmtHHmm t⟩ did date (fmtHHmm f) appts ≠
        CheckResult.outOfWorkingHours m)
  ∧ (∀ m, availabilityCheck ⟨fmtHHmm f, fmtHHmm t⟩ did date (fmtHHmm t) appts ≠
        CheckResult.outOfWorkingHours m)
  ∧ (∀ (s : String) (r : Nat), parseMulti s = some r → r < 1440 →
      (∃ m, availabilityCheck ⟨fmtHHmm f, fmtHHmm t⟩ did date s appts =
          CheckResult.outOfWorkingHours m) →
      r < f ∨ t < r) := by
  have hf : f < 1440 := by omega
  refine ⟨?_, ?_, ?_⟩
  · intro m
    rw [availabilityCheck_valid f t f hf ht hf _ did date (parseMulti_fmtHHmm f hf) _,
      if_neg (by omega)]
    split_ifs <;> simp
  · intro m
    rw [availabilityCheck_valid f t t hf ht ht _ did date (parseMulti_fmtHHmm t ht) _,
      if_neg (by omega)]
    split_ifs <;> simp
  · intro s r hs hr hex
    by_cases hout : r < f ∨ t < r
    · exact hout
    · exfalso
      obtain ⟨m, hm⟩ := hex
      rw [availabilityCheck_valid f t r hf ht hr s did date hs appts, if_neg hout] at hm
      split_ifs at hm <;> simp at hm

/-- C3: for every requested time (in either accepted textual form)
parsing strictly before `fromTime` or strictly after `toTime`, the check
returns the `OutOfWorkingHours` error regardless of the existing
appointments, and the message renders the doctor's window in 12-hour
display form (`fmt12`, moment's `format("hh:mm A")`). -/
theorem claim_c3 (f t r : Nat) (s did date : String) (appts : List Appointment)
    (hft : f ≤ t) (ht : t < 1440) (hr : r < 1440) (hs : parseMulti s = some r)
    (hout : r < f ∨ t < r) :
    availabilityCheck ⟨fmtHHmm f, fmtHHmm t⟩ did date s appts =
      CheckResult.outOfWorkingHours
        ("Please select a time within doctor's working hours " ++
          fmt12 f ++ " to " ++ fmt12 t) := by
  rw [availabilityCheck_valid f t r (by omega) ht hr s did date hs appts, if_pos hout]

/-- C6: an appointment with status `"rejected"` never causes a
`SlotConflict`: if every same-doctor same-date appointment inside the
conflict window is rejected, the check (for an in-hours request) returns
`Available`; a `"pending"` or `"approved"` appointment inside the window
(here: at the requested time itself) causes `SlotConflict`. -/
theorem claim_c6 (f t r : Nat) (did date : String)
    (hfr : f ≤ r) (hrt : r ≤ t) (ht : t < 1440) (h30 : 30 ≤ r) (h15 : r + 15 < 1440) :
    (∀ appts : List Appointment,
        (∀ a ∈ appts, a.doctorId = did → a.date = date →
            mongoStrLe (momShiftFmt (some r) (-30)) a.time = true →
            mongoStrLe a.time (momShiftFmt (some r) 15) = true →
            a.status = "rejected") →
        availabilityCheck ⟨fmtHHmm f, fmtHHmm t⟩ did date (fmtHHmm r) appts =
          CheckResult.available)
  ∧ (∀ st, (st = "pending" ∨ st = "approved") →
        availabilityCheck ⟨fmtHHmm f, fmtHHmm t⟩ did date (fmtHHmm r)
          [⟨did, date, fmtHHmm r, st⟩] = CheckResult.slotConflict) := by
  have hr : r < 1440 := by omega
  have hwS : momShiftFmt (some r) (-30) = fmtHHmm (r - 30) :=
    momShiftFmt_eq r (-30) (r - 30) (by omega)
  have hwE : momShiftFmt (some r) 15 = fmtHHmm (r + 15) :=
    momShiftFmt_eq r 15 (r + 15) (by omega)
  constructor
  · intro appts h
    have hnil : appts.filter (matchesQuery did date (momShiftFmt (some r) (-30))
        (momShiftFmt (some r) 15)) = [] := by
      rw [List.filter_eq_nil_iff]
      intro a ha hcon
      simp only [matchesQuery, Bool.and_eq_true, beq_iff_eq, Bool.not_eq_true',
        beq_eq_false_iff_ne] at hcon
      obtain ⟨⟨⟨⟨h1, h2⟩, h3⟩, h4⟩, h5⟩ := hcon
      exact h5 (h a ha h1 h2 h3 h4)
    rw [availabilityCheck_valid f t r (by omega) ht hr _ did date
      (parseMulti_fmtHHmm r hr) _, if_neg (by omega), hnil]
    simp
  · intro st hst
    have hst2 : (st == "rejected") = false := by
      rcases hst with h | h <;> subst h <;> rfl
    have mA : mongoStrLe (fmtHHmm (r - 30)) (fmtHHmm r) = true := by
      rw [mongoStrLe_fmt _ _ (by omega) (by omega)]
      simp
    have mB : mongoStrLe (fmtHHmm r) (fmtHHmm (r + 15)) = true := by
      rw [mongoStrLe_fmt _ _ (by omega) (by omega)]
      simp
    rw [availabilityCheck_valid f t r (by omega) ht hr _ did date
      (parseMulti_fmtHHmm r hr) _, if_neg (by omega), hwS, hwE]
    simp [matchesQuery, mA, mB, hst2]

/-- C9: when the conflict window crosses midnight (requested time within
30 minutes after `00:00` or within 15 minutes before `24:00`), the
formatted window start is lexicographically greater than the window end,
so the string-range filter matches no appointment at all and the check
returns `Available` for every appointment list - even one containing a
non-rejected appointment at exactly the requested time (see the
witness). -/
theorem claim_c9 (f t r : Nat) (did date : String) (appts : List Appointment)
    (hfr : f ≤ r) (hrt : r ≤ t) (ht : t < 1440) (hcross : r < 30 ∨ 1425 ≤ r) :
    mongoStrLe (momShiftFmt (some r) (-30)) (momShiftFmt (some r) 15) = false
  ∧ availabilityCheck ⟨fmtHHmm f, fmtHHmm t⟩ did date (fmtHHmm r) appts =
      CheckResult.available := by
  have hr : r < 1440 := by omega
  obtain ⟨x, y, hx, hy, hyx, hwS, hwE⟩ :
      ∃ x y, x < 1440 ∧ y < 1440 ∧ y < x ∧
        momShiftFmt (some r) (-30) = fmtHHmm x ∧ momShiftFmt (some r) 15 = fmtHHmm y := by
    rcases hcross with h | h
    · exact ⟨r + 1410, r + 15, by omega, by omega, by omega,
        momShiftFmt_eq r (-30) _ (by omega), momShiftFmt_eq r 15 _ (by omega)⟩
    · exact ⟨r - 30, r - 1425, by omega, by omega, by omega,
        momShiftFmt_eq r (-30) _ (by omega), momShiftFmt_eq r 15 _ (by omega)⟩
  have hle : mongoStrLe (fmtHHmm x) (fmtHHmm y) = false := by
    rw [mongoStrLe_fmt _ _ hx hy, decide_eq_false (by omega)]
  have hnil : appts.filter (matchesQuery did date (fmtHHmm x) (fmtHHmm y)) = [] := by
    rw [List.filter_eq_nil_iff]
    intro a ha hcon
    simp only [matchesQuery, Bool.and_eq_true] at hcon
    obtain ⟨⟨⟨⟨_, _⟩, h3⟩, h4⟩, _⟩ := hcon
    have htr : mongoStrLe (fmtHHmm x) (fmtHHmm y) = true := by
      simp only [mongoStrLe] at h3 h4 ⊢
      exact lexLe_trans _ _ _ h3 h4
    rw [htr] at hle
    simp at hle
  refine ⟨by rw [hwS, hwE]; exact hle, ?_⟩
  rw [availabilityCheck_valid f t r (by omega) ht hr _ did date
    (parseMulti_fmtHHmm r hr) _, if_neg (by omega), hwS, hwE, hnil]
  simp

/-- C10 (amended): the doctor's stored `fromTime`/`toTime` are parsed
only under `"HH:mm"`, but moment's non-strict parsing is unanchored and
lenient: it reads the first digit run anywhere as the hour (so
`"09:00 AM"` parses as 09:00 with the meridiem ignored - see the
counterexample - and even `"a12:30"` parses as 12:30) and accepts hour
24 when the minutes are zero (`"24:00"` is next-day midnight).  Only
when a stored string fails this parse entirely - no digit anywhere, or
an out-of-range time (hour over 24, hour 24 with nonzero minutes, or
minutes over 59) - is the moment invalid; when both stored times are
invalid in this sense, the `isBefore`/`isAfter` comparisons evaluate to
false, so that no request is ever rejected as out of working hours for
that doctor. -/
theorem claim_c10_amended (doc : Doctor) (did date time : String)
    (appts : List Appointment)
    (hf : parse24 doc.fromTime = none) (ht : parse24 doc.toTime = none) :
    ∀ m, availabilityCheck doc did date time appts ≠ CheckResult.outOfWorkingHours m := by
  intro m
  have h1 : parse24val doc.fromTime = none := by simp [parse24val, hf]
  have h2 : parse24val doc.toTime = none := by simp [parse24val, ht]
  unfold availabilityCheck
  rw [h1, h2]
  cases hpm : parseMulti time <;>
    (simp only [momIsBefore, momIsAfter, Bool.or_self]
     rw [if_neg (by simp)]
     split_ifs <;> simp)

/-- C5: the check's outcome depends on the requested-time string only
through its parse, so two strings with equal parses (in particular
`"02:30 PM"` and `"14:30"`, both parsing to 870 minutes) produce
identical results against any working hours and appointment set; and for
every minute-of-day value the canonical 12-hour and 24-hour renderings
parse identically. -/
theorem claim_c5 :
    (∀ (doc : Doctor) (did date s1 s2 : String) (appts : List Appointment),
        parseMulti s1 = parseMulti s2 →
        availabilityCheck doc did date s1 appts =
          availabilityCheck doc did date s2 appts)
  ∧ parseMulti "02:30 PM" = some 870 ∧ parseMulti "14:30" = some 870
  ∧ (∀ n, n < 1440 → parseMulti (fmt12 n) = parseMulti (fmtHHmm n)) := by
  refine ⟨?_, rfl, rfl, ?_⟩
  · intro doc did date s1 s2 appts h
    unfold availabilityCheck
    rw [h]
  · intro n hn
    rw [parseMulti_fmt12 n hn, parseMulti_fmtHHmm n hn]

/-- C7: the availability check is a pure, deterministic function of the
database snapshot it reads (doctor record, appointment list) and the
request fields: two invocations on identical inputs return identical
results, message included.  The embedding is a total function, faithful
to the source handler, whose only effects are the reads modelled as
arguments. -/
theorem claim_c7 (doctor : Option Doctor) (did date time : String)
    (appts : List Appointment) :
    checkBookingAvailability doctor did date time appts =
      checkBookingAvailability doctor did date time appts := rfl

/-- C8: absence of a doctor record is handled before the availability
logic runs (the handler returns `DoctorNotFound` at source line 112 and
otherwise delegates), and the availability component itself only ever
produces `OutOfWorkingHours`, `SlotConflict` or `Available` - a subset
of the outcomes named by the claim (it never raises for missing doctor
data). -/
theorem claim_c8 (doc : Doctor) (did date time : String) (appts : List Appointment) :
    (checkBookingAvailability (some doc) did date time appts =
        availabilityCheck doc did date time appts)
  ∧ (checkBookingAvailability none did date time appts = CheckResult.doctorNotFound)
  ∧ (availabilityCheck doc did date time appts = CheckResult.slotConflict ∨
     availabilityCheck doc did date time appts = CheckResult.available ∨
     ∃ m, availabilityCheck doc did date time appts =
        CheckResult.outOfWorkingHours m) := by
  refine ⟨rfl, rfl, ?_⟩
  unfold availabilityCheck
  split_ifs with h1 h2
  · exact Or.inr (Or.inr ⟨_, rfl⟩)
  · exact Or.inl rfl
  · exact Or.inr (Or.inl rfl)

/-- C1 (counterexample to the claim as stated): with working hours
`00:00`-`23:59`, requested time `00:10` and a pending appointment of the
same doctor and date at `00:25 = r + 15`, the check returns `Available`,
not `SlotConflict`: the window start formats as `"23:40"` and the string
range `["23:40", "00:25"]` matches nothing. -/
theorem claim_c1_counterexample :
    availabilityCheck ⟨"00:00", "23:59"⟩ "doc1" "2024-01-01" "00:10"
      [⟨"doc1", "2024-01-01", "00:25", "pending"⟩] = CheckResult.available := rfl

/-- C4 (evidence for the divergence): `"banana"` parses under neither
accepted form, yet the check silently proceeds: the invalid moment makes
both working-hours comparisons false and the window bounds format as
`"Invalid date"`, so the filter matches nothing and the check returns
`Available` - there is no `InvalidTimeFormat` hard error in the code. -/
theorem claim_c4_evidence :
    parseMulti "banana" = none ∧
    availabilityCheck ⟨"09:00", "17:00"⟩ "doc1" "2024-01-01" "banana"
      [⟨"doc1", "2024-01-01", "10:00", "pending"⟩] = CheckResult.available :=
  ⟨rfl, rfl⟩

/-- C10 (counterexample to the claim as stated): a doctor whose stored
hours are the 12-hour strings `"09:00 AM"`/`"05:00 PM"` does reject a
request at `"08:00"` as out of working hours: moment's non-strict
`"HH:mm"` parse reads `"09:00 AM"` as 09:00 and `"05:00 PM"` as 05:00,
so the comparisons are not vacuously false (note the garbled window
`09:00 AM to 05:00 AM` in the message). -/
theorem claim_c10_counterexample :
    availabilityCheck ⟨"09:00 AM", "05:00 PM"⟩ "doc1" "2024-01-01" "08:00" [] =
      CheckResult.outOfWorkingHours
        "Please select a time within doctor's working hours 09:00 AM to 05:00 AM" := rfl

/-- C1 (witness): the amended claim evaluated at working hours
09:00-17:00, requested 10:00, probes 09:30/10:15 (conflict) and
09:29/10:16 (available). -/
theorem claim_c1_witness :
    (availabilityCheck ⟨fmtHHmm 540, fmtHHmm 1020⟩ "d" "2024-01-01" (fmtHHmm 600)
        [⟨"d", "2024-01-01", fmtHHmm 570, "pending"⟩] = CheckResult.slotConflict)
  ∧ (availabilityCheck ⟨fmtHHmm 540, fmtHHmm 1020⟩ "d" "2024-01-01" (fmtHHmm 600)
        [⟨"d", "2024-01-01", fmtHHmm 615, "pending"⟩] = CheckResult.slotConflict)
  ∧ (availabilityCheck ⟨fmtHHmm 540, fmtHHmm 1020⟩ "d" "2024-01-01" (fmtHHmm 600)
        [⟨"d", "2024-01-01", fmtHHmm 569, "pending"⟩] = CheckResult.available)
  ∧ (availabilityCheck ⟨fmtHHmm 540, fmtHHmm 1020⟩ "d" "2024-01-01" (fmtHHmm 600)
        [⟨"d", "2024-01-01", fmtHHmm 616, "pending"⟩] = CheckResult.available) :=
  claim_c1_amended 540 1020 600 "d" "2024-01-01" "pending" (by omega) (by omega)
    (by omega) (by omega) (by omega) (by decide)

/-- C2 (witness): requested time exactly the opening boundary 09:00 of
a 09:00-17:00 window is not rejected as out of hours. -/
theorem claim_c2_witness :
    availabilityCheck ⟨fmtHHmm 540, fmtHHmm 1020⟩ "d" "2024-01-01" (fmtHHmm 540) [] ≠
      CheckResult.outOfWorkingHours "x" :=
  (claim_c2 540 1020 "d" "2024-01-01" [] (by omega) (by omega)).1 "x"

/-- C3 (witness): hours 09:00-17:00 and requested `"08:59"` yield the
out-of-hours error with the window rendered as 09:00 AM to 05:00 PM
(the spec's scenario). -/
theorem claim_c3_witness :
    availabilityCheck ⟨fmtHHmm 540, fmtHHmm 1020⟩ "d" "2024-01-01" "08:59" [] =
      CheckResult.outOfWorkingHours
        "Please select a time within doctor's working hours 09:00 AM to 05:00 PM" :=
  claim_c3 540 1020 539 "08:59" "d" "2024-01-01" [] (by omega) (by omega) (by omega)
    rfl (Or.inl (by omega))

/-- C6 (witness): a pending appointment at the requested time 10:00
inside hours 09:00-17:00 causes `SlotConflict`. -/
theorem claim_c6_witness :
    availabilityCheck ⟨fmtHHmm 540, fmtHHmm 1020⟩ "d" "2024-01-01" (fmtHHmm 600)
      [⟨"d", "2024-01-01", fmtHHmm 600, "pending"⟩] = CheckResult.slotConflict :=
  (claim_c6 540 1020 600 "d" "2024-01-01" (by omega) (by omega) (by omega) (by omega)
      (by omega)).2 "pending" (Or.inl rfl)

/-- C9 (witness): working hours 00:00-23:59, requested 00:10, and a
pending appointment at exactly 00:10: the crossing window makes the
check return `Available`. -/
theorem claim_c9_witness :
    availabilityCheck ⟨fmtHHmm 0, fmtHHmm 1439⟩ "d" "2024-01-01" (fmtHHmm 10)
      [⟨"d", "2024-01-01", fmtHHmm 10, "pending"⟩] = CheckResult.available :=
  (claim_c9 0 1439 10 "d" "2024-01-01" [⟨"d", "2024-01-01", fmtHHmm 10, "pending"⟩]
      (by omega) (by omega) (by omega) (Or.inl (by omega))).2

/-- C10 (witness): a doctor with unparseable stored hours
`"morning"`/`"evening"` never rejects a request as out of hours. -/
theorem claim_c10_amended_witness :
    availabilityCheck ⟨"morning", "evening"⟩ "d" "2024-01-01" "10:00" [] ≠
      CheckResult.outOfWorkingHours "x" :=
  claim_c10_amended ⟨"morning", "evening"⟩ "d" "2024-01-01" "10:00" [] rfl rfl "x"

end DocSpot

